import Mathlib

/-!
Verification of the subdomain-namespace allocator (`src/lib/subdomain.ts`).

Strings are modelled as Lean `String` (a list of characters); `String.length`
counts characters. JavaScript `toLowerCase` is modelled by ASCII
`Char.toLower`; the difference is invisible to the properties proved here,
since every non-ASCII character is replaced by a hyphen in the next step
anyway. The external record store (the supabase `companies` table lookup) is
modelled as a function `String → LookupResult`, one outcome per key, covering
the four outcomes the code distinguishes: a row found, the PGRST116 "no rows"
error, any other error object, and a thrown exception.
-/

/-- Outcome of the store lookup performed by `checkAvailability`:
`found` (a row came back), `noRows` (the PGRST116 error meaning zero rows),
`storeError` (any other error object), `exn` (the awaited call threw). -/
inductive LookupResult where
  | found
  | noRows
  | storeError
  | exn
deriving DecidableEq

/-- The store: an exact-match lookup keyed on the subdomain field. -/
def Store : Type := String → LookupResult

/-- Result record of `validateSubdomain` (interface SubdomainValidation). -/
structure SubdomainValidation where
  isValid : Bool
  isAvailable : Bool
  message : String
deriving DecidableEq

/-- Result record of `validateFormat`. -/
structure FormatResult where
  isValid : Bool
  message : String
deriving DecidableEq

/-- RESERVED_SUBDOMAINS constant from the source. -/
def RESERVED_SUBDOMAINS : List String :=
  ["www", "api", "admin", "app", "mail", "ftp", "blog", "shop", "store",
   "support", "help", "docs", "dev", "test", "staging", "prod", "production",
   "dashboard", "portal", "login", "register", "auth", "account", "profile",
   "settings", "config", "status", "health", "ping", "webhook", "callback",
   "assets", "static", "cdn", "media", "images", "files", "uploads"]

/-- Membership in the character class `[a-z0-9]` (ASCII lowercase or digit). -/
def isLowerAlnum (c : Char) : Bool :=
  c.isLower || c.isDigit

/-- Membership in the character class `[a-z0-9-]`. -/
def isSubdomainChar (c : Char) : Bool :=
  c.isLower || c.isDigit || c == '-'

/-- The regex replacement `replace(/[^a-z0-9]/g, \x27-\x27)`: every character
outside `[a-z0-9]` becomes a hyphen. -/
def replaceNonAlnum (l : List Char) : List Char :=
  l.map (fun c => if isLowerAlnum c then c else '-')

/-- The second regex replacement in generateSubdomain (global replace of the
pattern "one or more hyphens" by a single hyphen): each maximal run of
hyphens collapses to one. -/
def collapseHyphens : List Char → List Char
  | [] => []
  | [c] => [c]
  | a :: b :: rest =>
    if a == '-' && b == '-' then collapseHyphens (b :: rest)
    else a :: collapseHyphens (b :: rest)

/-- Drop a single leading hyphen, if present. -/
def dropLeadHyphen : List Char → List Char
  | [] => []
  | c :: rest => if c == '-' then rest else c :: rest

/-- The regex replacement `replace(/^-|-$/g, \x27\x27)`: remove one leading
and one trailing hyphen. -/
def stripEdgeHyphens (l : List Char) : List Char :=
  (dropLeadHyphen (dropLeadHyphen l).reverse).reverse

/-- SubdomainService.generateSubdomain: lowercase, replace non-alphanumerics
with hyphens, collapse hyphen runs, strip one leading/trailing hyphen,
truncate to 30 characters (`substring(0, 30)`). -/
def generateSubdomain (companyName : String) : String :=
  ⟨(stripEdgeHyphens (collapseHyphens
      (replaceNonAlnum (companyName.data.map Char.toLower)))).take 30⟩

/-- The regex test `/^[a-z0-9-]+$/.test(s)`: nonempty and every character in
`[a-z0-9-]`. -/
def regexSubdomainTest (s : String) : Bool :=
  !s.data.isEmpty && s.data.all isSubdomainChar

/-- The test `s.startsWith(\x27-\x27)`. -/
def startsWithHyphen (s : String) : Bool :=
  s.data.head? == some '-'

/-- The test `s.endsWith(\x27-\x27)`. -/
def endsWithHyphen (s : String) : Bool :=
  s.data.getLast? == some '-'

/-- The test `s.includes("--")`: two adjacent hyphens somewhere in `s`. -/
def hasDoubleHyphen : List Char → Bool
  | [] => false
  | [_] => false
  | a :: b :: rest => (a == '-' && b == '-') || hasDoubleHyphen (b :: rest)

def msgTooShort : String := "Subdomain must be at least 3 characters long"
def msgTooLong : String := "Subdomain must be no more than 30 characters long"
def msgCharset : String :=
  "Subdomain can only contain lowercase letters, numbers, and hyphens"
def msgEdgeHyphen : String := "Subdomain cannot start or end with a hyphen"
def msgConsecHyphen : String := "Subdomain cannot contain consecutive hyphens"
def msgReservedName : String := "This subdomain is reserved and cannot be used"
def msgValidFormat : String := "Valid subdomain format"
def msgAvailable : String := "Subdomain is available"
def msgTaken : String := "Subdomain is already taken"

/-- SubdomainService.validateFormat: the six checks in source order. -/
def validateFormat (subdomain : String) : FormatResult :=
  if subdomain.length < 3 then
    ⟨false, msgTooShort⟩
  else if subdomain.length > 30 then
    ⟨false, msgTooLong⟩
  else if !regexSubdomainTest subdomain then
    ⟨false, msgCharset⟩
  else if startsWithHyphen subdomain || endsWithHyphen subdomain then
    ⟨false, msgEdgeHyphen⟩
  else if hasDoubleHyphen subdomain.data then
    ⟨false, msgConsecHyphen⟩
  else if RESERVED_SUBDOMAINS.contains subdomain then
    ⟨false, msgReservedName⟩
  else
    ⟨true, msgValidFormat⟩

/-- SubdomainService.checkAvailability: true only on the PGRST116 "no rows"
signal; a returned row, any other error, or a thrown exception (caught by the
try/catch) all yield false. -/
def checkAvailability (store : Store) (subdomain : String) : Bool :=
  match store subdomain with
  | .noRows => true
  | .storeError => false
  | .found => false
  | .exn => false

/-- SubdomainService.validateSubdomain: format first, then availability. -/
def validateSubdomain (store : Store) (subdomain : String) :
    SubdomainValidation :=
  let formatValidation := validateFormat subdomain
  if !formatValidation.isValid then
    ⟨false, false, formatValidation.message⟩
  else
    let isAvailable := checkAvailability store subdomain
    ⟨true, isAvailable, if isAvailable then msgAvailable else msgTaken⟩

/-- SubdomainService.generateAlternatives: the loop `for i in 1..count` that
keeps `base-i` whenever `validateSubdomain` reports valid and available,
embedded as a filterMap over `[1, ..., count]`. -/
def generateAlternatives (store : Store) (baseSubdomain : String)
    (count : Nat) : List String :=
  (List.range' 1 count).filterMap (fun i =>
    let alternative := baseSubdomain ++ "-" ++ toString i
    let validation := validateSubdomain store alternative
    if validation.isValid && validation.isAvailable then some alternative
    else none)

/-- JavaScript `hostname.split(".")`: the dot-separated fields, with empty
fields preserved; the empty string splits to one empty field. -/
def splitDot : List Char → List (List Char)
  | [] => [[]]
  | '.' :: rest => [] :: splitDot rest
  | c :: rest =>
    match splitDot rest with
    | [] => [[c]]
    | h :: t => (c :: h) :: t

/-- SubdomainService.getCurrentSubdomain with the ambient
`window.location.hostname` made an explicit argument: loopback aliases give
none, hosts with at least 3 dot-separated parts give the first part,
everything else gives none. -/
def extractSubdomainFromHost (hostname : String) : Option String :=
  let parts := splitDot hostname.data
  if hostname == "localhost" || hostname == "127.0.0.1" then none
  else if parts.length ≥ 3 then (parts.head?).map List.asString
  else none

/-- Spec-side view of the rule ordering: the messages of the violated rules,
listed in the spec's precedence order 1-6. Its head, when any rule is
violated, is the message of the first violated rule. -/
def formatViolations (s : String) : List String :=
  (if s.length < 3 then [msgTooShort] else []) ++
  (if s.length > 30 then [msgTooLong] else []) ++
  (if !regexSubdomainTest s then [msgCharset] else []) ++
  (if startsWithHyphen s || endsWithHyphen s then [msgEdgeHyphen] else []) ++
  (if hasDoubleHyphen s.data then [msgConsecHyphen] else []) ++
  (if RESERVED_SUBDOMAINS.contains s then [msgReservedName] else [])

/-- Spec-side collapse of consecutive hyphens, written as a right fold:
a hyphen is kept only when the already-built suffix does not start with
one. -/
def collapseSpec (l : List Char) : List Char :=
  l.foldr
    (fun c acc =>
      if c == '-' && acc.head? == some '-' then acc else c :: acc) []

/-- Spec-side strip: remove all leading and all trailing hyphens. -/
def stripSpec (l : List Char) : List Char :=
  ((l.dropWhile (fun c => c == '-')).reverse.dropWhile
    (fun c => c == '-')).reverse

/-- The normalize pipeline in the spec's words: lowercase, replace every
character outside the class by a hyphen, collapse consecutive hyphens into
one, strip leading/trailing hyphens, truncate to 30 characters. -/
def normalizeSpec (displayName : String) : String :=
  ⟨(stripSpec (collapseSpec (replaceNonAlnum
      (displayName.data.map Char.toLower)))).take 30⟩

/-! ### Concrete stores used in examples and witnesses -/

/-- A store with no records at all: every lookup reports no rows. -/
def availStore : Store := fun _ => LookupResult.noRows

/-- A store where every lookup returns a row: every name is taken. -/
def takenStore : Store := fun _ => LookupResult.found

/-- A store where every lookup fails with a non-PGRST116 error. -/
def errStore : Store := fun _ => LookupResult.storeError

/-- A store where every lookup throws. -/
def exnStore : Store := fun _ => LookupResult.exn

/-- The store of the spec scenario: acme-1 and acme-3 are taken, everything
else is free. -/
def acmeStore : Store := fun s =>
  if s == "acme-1" || s == "acme-3" then LookupResult.found
  else LookupResult.noRows

/-! ### Helper lemmas -/

/-- validateFormat accepts exactly when all six checks pass. -/
theorem validateFormat_isValid_iff (s : String) :
    (validateFormat s).isValid = true ↔
      (¬ s.length < 3 ∧ ¬ s.length > 30 ∧ regexSubdomainTest s = true ∧
       (startsWithHyphen s || endsWithHyphen s) = false ∧
       hasDoubleHyphen s.data = false ∧
       RESERVED_SUBDOMAINS.contains s = false) := by
  unfold validateFormat
  split_ifs with h1 h2 h3 h4 h5 h6 <;> simp_all
  intro hs he
  rcases h4 with h | h <;> simp_all

/-- checkAvailability is true exactly on the no-rows signal. -/
theorem checkAvailability_iff (store : Store) (s : String) :
    checkAvailability store s = true ↔ store s = LookupResult.noRows := by
  unfold checkAvailability
  cases h : store s <;> simp

/-- validateSubdomain as a single case split on the format check. -/
theorem validateSubdomain_cases (store : Store) (s : String) :
    validateSubdomain store s =
      if (validateFormat s).isValid then
        ⟨true, checkAvailability store s,
         if checkAvailability store s then msgAvailable else msgTaken⟩
      else ⟨false, false, (validateFormat s).message⟩ := by
  unfold validateSubdomain
  cases h : (validateFormat s).isValid <;> simp [h]

/-! ### Claims -/

/-- Claim C1: any input that validateSubdomain reports as valid and available
satisfies all six format rules (length 3-30, charset, no edge hyphen, no
double hyphen), is not reserved, and the store lookup for it positively
reported zero matching rows. -/
theorem valid_available_meets_all_rules (store : Store) (s : String)
    (hv : (validateSubdomain store s).isValid = true)
    (ha : (validateSubdomain store s).isAvailable = true) :
    3 ≤ s.length ∧ s.length ≤ 30 ∧
    s.data.all isSubdomainChar = true ∧
    startsWithHyphen s = false ∧ endsWithHyphen s = false ∧
    hasDoubleHyphen s.data = false ∧
    RESERVED_SUBDOMAINS.contains s = false ∧
    store s = LookupResult.noRows := by
  rw [validateSubdomain_cases] at hv ha
  cases hfv : (validateFormat s).isValid with
  | false => simp [hfv] at hv
  | true =>
    simp only [hfv, if_true] at ha
    have hrules := (validateFormat_isValid_iff s).mp hfv
    have hstore := (checkAvailability_iff store s).mp ha
    have hcs : s.data.all isSubdomainChar = true := by
      have h := hrules.2.2.1
      unfold regexSubdomainTest at h
      simp at h
      exact List.all_eq_true.mpr h.2
    have hedges := hrules.2.2.2.1
    simp only [Bool.or_eq_false_iff] at hedges
    exact ⟨by omega, by omega, hcs, hedges.1, hedges.2,
      hrules.2.2.2.2.1, hrules.2.2.2.2.2, hstore⟩

/-- Witness for C1 at the store with no records and the input "abc". -/
theorem valid_available_meets_all_rules_w :
    3 ≤ ("abc" : String).length ∧ ("abc" : String).length ≤ 30 ∧
    ("abc" : String).data.all isSubdomainChar = true ∧
    startsWithHyphen "abc" = false ∧ endsWithHyphen "abc" = false ∧
    hasDoubleHyphen ("abc" : String).data = false ∧
    RESERVED_SUBDOMAINS.contains "abc" = false ∧
    availStore "abc" = LookupResult.noRows :=
  valid_available_meets_all_rules availStore "abc" (by decide) (by decide)

/-- Claim C2: validateFormat applies its six rules in the fixed order
length-too-short, length-too-long, charset, edge hyphen, double hyphen,
reserved, and on any violation reports the message of the first violated
rule; every string of length 0-2 gets the too-short message regardless of
content, and "ab--cd" gets the consecutive-hyphen message. -/
theorem validateFormat_first_violation (s : String) :
    (validateFormat s =
      match (formatViolations s).head? with
      | some m => ⟨false, m⟩
      | none => ⟨true, msgValidFormat⟩) ∧
    (∀ t : String, t.length < 3 → validateFormat t = ⟨false, msgTooShort⟩) ∧
    validateFormat "ab--cd" = ⟨false, msgConsecHyphen⟩ := by
  refine ⟨?_, ?_, by decide⟩
  · unfold validateFormat formatViolations
    split_ifs <;> simp
  · intro t ht
    unfold validateFormat
    rw [if_pos ht]

/-- Witness for C2 at the length-1 input "x". -/
theorem validateFormat_first_violation_w :
    validateFormat "x" = ⟨false, msgTooShort⟩ :=
  (validateFormat_first_violation "x").2.1 "x" (by decide)

/-- Claim C3: checkAvailability is fail-closed: it answers true exactly on
the positive no-rows signal; a returned row, any other store error, or a
thrown exception all give false, and no fault escapes to the caller (the
function is total and Bool-valued). -/
theorem checkAvailability_fail_closed (store : Store) (s : String) :
    (checkAvailability store s = true ↔ store s = LookupResult.noRows) ∧
    (store s = LookupResult.storeError → checkAvailability store s = false) ∧
    (store s = LookupResult.exn → checkAvailability store s = false) ∧
    (store s = LookupResult.found → checkAvailability store s = false) := by
  refine ⟨checkAvailability_iff store s, ?_, ?_, ?_⟩ <;>
    (intro h; unfold checkAvailability; rw [h])

/-- Witness for C3 at stores that error, throw, and find a row. -/
theorem checkAvailability_fail_closed_w :
    checkAvailability errStore "acme" = false ∧
    checkAvailability exnStore "acme" = false ∧
    checkAvailability takenStore "acme" = false :=
  ⟨(checkAvailability_fail_closed errStore "acme").2.1 rfl,
   (checkAvailability_fail_closed exnStore "acme").2.2.1 rfl,
   (checkAvailability_fail_closed takenStore "acme").2.2.2 rfl⟩

/-- Claim C5: validateSubdomain short-circuits: on format failure it returns
isValid false, isAvailable false and the format message, and the result does
not depend on the store (no lookup is consulted); on format success it
returns isValid true, the checkAvailability verdict, and the corresponding
availability message. -/
theorem validateSubdomain_shortcircuit (store : Store) (s : String) :
    ((validateFormat s).isValid = false →
      validateSubdomain store s =
        ⟨false, false, (validateFormat s).message⟩ ∧
      (∀ store2 : Store,
        validateSubdomain store2 s = validateSubdomain store s)) ∧
    ((validateFormat s).isValid = true →
      validateSubdomain store s =
        ⟨true, checkAvailability store s,
         if checkAvailability store s then msgAvailable else msgTaken⟩) := by
  constructor
  · intro h
    constructor
    · rw [validateSubdomain_cases, h]
      simp
    · intro store2
      rw [validateSubdomain_cases store2, validateSubdomain_cases store, h]
      simp
  · intro h
    rw [validateSubdomain_cases, h]
    simp

/-- Witness for C5 at a format-invalid input "ab" and a format-valid input
"abc" against the empty store. -/
theorem validateSubdomain_shortcircuit_w :
    validateSubdomain availStore "ab" =
      ⟨false, false, (validateFormat "ab").message⟩ ∧
    validateSubdomain availStore "abc" =
      ⟨true, checkAvailability availStore "abc",
       if checkAvailability availStore "abc" then msgAvailable
       else msgTaken⟩ :=
  ⟨((validateSubdomain_shortcircuit availStore "ab").1 (by decide)).1,
   (validateSubdomain_shortcircuit availStore "abc").2 (by decide)⟩

/-- Claim C8: extractSubdomainFromHost returns the leftmost dot-separated
label exactly when the host has at least 3 dot-separated parts and is
neither localhost nor 127.0.0.1, and none otherwise; concretely
tenant.uproom.com gives tenant, localhost gives none, uproom.com gives
none. -/
theorem extractSubdomainFromHost_leftmost (host : String) :
    (extractSubdomainFromHost host =
      if host ≠ "localhost" ∧ host ≠ "127.0.0.1" ∧
         3 ≤ (splitDot host.data).length
      then ((splitDot host.data).head?).map List.asString
      else none) ∧
    extractSubdomainFromHost "tenant.uproom.com" = some "tenant" ∧
    extractSubdomainFromHost "localhost" = none ∧
    extractSubdomainFromHost "uproom.com" = none := by
  refine ⟨?_, by decide, by decide, by decide⟩
  unfold extractSubdomainFromHost
  split_ifs with h1 h2 h3 <;> simp_all

/-- Claim C9: normalize can produce an output ending in a hyphen, because
truncation to 30 characters happens after edge hyphens are stripped: 29
copies of the letter a followed by "!b" normalizes to a 30-character string
ending in a hyphen, which validateFormat then rejects under the
edge-hyphen rule. -/
theorem generateSubdomain_can_end_in_hyphen :
    endsWithHyphen (generateSubdomain "aaaaaaaaaaaaaaaaaaaaaaaaaaaaa!b")
      = true ∧
    (generateSubdomain "aaaaaaaaaaaaaaaaaaaaaaaaaaaaa!b").length = 30 ∧
    validateFormat (generateSubdomain "aaaaaaaaaaaaaaaaaaaaaaaaaaaaa!b")
      = ⟨false, msgEdgeHyphen⟩ := by
  decide

/-- filterMap with a keep-if guard over a mapped candidate equals map then
filter. -/
theorem filterMap_guard_eq_filter (f : Nat → String) (p : String → Bool)
    (l : List Nat) :
    l.filterMap (fun i => if p (f i) then some (f i) else none) =
      (l.map f).filter p := by
  induction l with
  | nil => rfl
  | cons a t ih =>
    simp only [List.filterMap_cons, List.map_cons, List.filter_cons]
    cases hp : p (f a) <;> simp [hp, ih]

/-- Claim C4: generateAlternatives keeps, in ascending suffix order, exactly
the candidates base-1 through base-count that validateSubdomain reports
valid and available (one check per candidate); on the spec scenario store it
returns exactly acme-2, acme-4, acme-5, and when every candidate is taken it
returns the empty list. -/
theorem generateAlternatives_filters_candidates :
    (∀ (store : Store) (base : String) (count : Nat),
      generateAlternatives store base count =
        ((List.range' 1 count).map
          (fun i => base ++ "-" ++ toString i)).filter
          (fun alt => (validateSubdomain store alt).isValid &&
            (validateSubdomain store alt).isAvailable)) ∧
    generateAlternatives acmeStore "acme" 5 =
      ["acme-2", "acme-4", "acme-5"] ∧
    generateAlternatives takenStore "acme" 5 = [] := by
  refine ⟨?_, by decide, by decide⟩
  intro store base count
  exact filterMap_guard_eq_filter (fun i => base ++ "-" ++ toString i)
    (fun alt => (validateSubdomain store alt).isValid &&
      (validateSubdomain store alt).isAvailable) (List.range' 1 count)

/-- Unfolding equation for Nat.toDigitsCore when the quotient is zero. -/
theorem toDigitsCore_succ_last (b fuel n : Nat) (ds : List Char)
    (h : n / b = 0) :
    Nat.toDigitsCore b (fuel + 1) n ds = Nat.digitChar (n % b) :: ds := by
  unfold Nat.toDigitsCore
  simp [h]

/-- Unfolding equation for Nat.toDigitsCore when the quotient is nonzero. -/
theorem toDigitsCore_succ_step (b fuel n : Nat) (ds : List Char)
    (h : ¬ n / b = 0) :
    Nat.toDigitsCore b (fuel + 1) n ds =
      Nat.toDigitsCore b fuel (n / b) (Nat.digitChar (n % b) :: ds) := by
  conv_lhs => unfold Nat.toDigitsCore
  simp [h]

/-- The digit accumulator of Nat.toDigitsCore never shrinks. -/
theorem toDigitsCore_length_le (b : Nat) (fuel : Nat) :
    ∀ (n : Nat) (ds : List Char),
      ds.length ≤ (Nat.toDigitsCore b fuel n ds).length := by
  induction fuel with
  | zero => intro n ds; simp [Nat.toDigitsCore]
  | succ fuel ih =>
    intro n ds
    by_cases h : n / b = 0
    · rw [toDigitsCore_succ_last b fuel n ds h]
      simp
    · rw [toDigitsCore_succ_step b fuel n ds h]
      exact le_trans (Nat.le_succ _) (ih (n / b) (Nat.digitChar (n % b) :: ds))

/-- With at least one unit of fuel, Nat.toDigitsCore emits at least one
digit. -/
theorem toDigitsCore_length_lt (b : Nat) (fuel n : Nat) (ds : List Char)
    (hf : 1 ≤ fuel) :
    ds.length + 1 ≤ (Nat.toDigitsCore b fuel n ds).length := by
  cases fuel with
  | zero => omega
  | succ fuel =>
    by_cases h : n / b = 0
    · rw [toDigitsCore_succ_last b fuel n ds h]
      simp
    · rw [toDigitsCore_succ_step b fuel n ds h]
      have hle := toDigitsCore_length_le b fuel (n / b)
        (Nat.digitChar (n % b) :: ds)
      simpa using hle

/-- The decimal rendering of a natural number is nonempty. -/
theorem toString_nat_length_pos (n : Nat) : 1 ≤ (toString n).length := by
  show 1 ≤ (Nat.repr n).length
  unfold Nat.repr Nat.toDigits
  rw [List.length_asString]
  simpa using toDigitsCore_length_lt 10 (n + 1) n [] (by omega)

/-- Claim C10: when the base has at least 29 characters, every candidate
base-i has length at least 31, so the too-long format rule rejects it before
any store lookup and generateAlternatives returns the empty list regardless
of the store. -/
theorem generateAlternatives_long_base_empty (store : Store) (base : String)
    (count : Nat) (hb : 29 ≤ base.length) (_hc : 1 ≤ count) :
    generateAlternatives store base count = [] := by
  unfold generateAlternatives
  rw [List.filterMap_eq_nil_iff]
  intro i _
  simp only []
  have hlen : 31 ≤ (base ++ "-" ++ toString i).length := by
    rw [String.length_append, String.length_append]
    have h1 := toString_nat_length_pos i
    have h2 : ("-" : String).length = 1 := rfl
    omega
  have hinv : (validateFormat (base ++ "-" ++ toString i)).isValid
      = false := by
    unfold validateFormat
    rw [if_neg (by omega), if_pos (by omega)]
  have hv : (validateSubdomain store (base ++ "-" ++ toString i)).isValid
      = false := by
    rw [validateSubdomain_cases, hinv]
    simp
  simp [hv]

/-- Witness for C10 at a 29-character base against the empty store. -/
theorem generateAlternatives_long_base_empty_w :
    generateAlternatives availStore "aaaaaaaaaaaaaaaaaaaaaaaaaaaaa" 5
      = [] :=
  generateAlternatives_long_base_empty availStore
    "aaaaaaaaaaaaaaaaaaaaaaaaaaaaa" 5 (by decide) (by decide)

/-- Collapsing hyphen runs only removes characters. -/
theorem collapseHyphens_sublist (l : List Char) :
    (collapseHyphens l).Sublist l := by
  induction l with
  | nil => simp [collapseHyphens]
  | cons a t ih =>
    cases t with
    | nil => simp [collapseHyphens]
    | cons b t2 =>
      unfold collapseHyphens
      split
      · exact ih.cons a
      · exact ih.cons₂ a

/-- Dropping a leading hyphen only removes characters. -/
theorem dropLeadHyphen_sublist (l : List Char) :
    (dropLeadHyphen l).Sublist l := by
  cases l with
  | nil => simp [dropLeadHyphen]
  | cons c rest =>
    show (if c == '-' then rest else c :: rest).Sublist (c :: rest)
    by_cases h : (c == '-') = true
    · rw [if_pos h]
      exact List.sublist_cons_self c rest
    · rw [if_neg h]

/-- Stripping edge hyphens only removes characters. -/
theorem stripEdgeHyphens_sublist (l : List Char) :
    (stripEdgeHyphens l).Sublist l := by
  unfold stripEdgeHyphens
  have h2 := (dropLeadHyphen_sublist (dropLeadHyphen l).reverse).reverse
  rw [List.reverse_reverse] at h2
  exact h2.trans (dropLeadHyphen_sublist l)

/-- Every character produced by the replacement step is in the subdomain
class. -/
theorem replaceNonAlnum_chars (l : List Char) (c : Char)
    (hc : c ∈ replaceNonAlnum l) : isSubdomainChar c = true := by
  unfold replaceNonAlnum at hc
  simp only [List.mem_map] at hc
  obtain ⟨a, _, ha⟩ := hc
  by_cases h : isLowerAlnum a = true
  · rw [if_pos h] at ha
    subst ha
    unfold isSubdomainChar
    unfold isLowerAlnum at h
    simp [h]
  · rw [if_neg h] at ha
    subst ha
    decide

/-- Claim C7: every output of normalize has length at most 30 and consists
only of characters in the class lowercase letter, digit, hyphen. -/
theorem generateSubdomain_wellformed (s : String) :
    (generateSubdomain s).length ≤ 30 ∧
    (generateSubdomain s).data.all isSubdomainChar = true := by
  constructor
  · show (List.take 30 _).length ≤ 30
    simp
  · rw [List.all_eq_true]
    intro c hc
    have h1 : c ∈ stripEdgeHyphens (collapseHyphens
        (replaceNonAlnum (s.data.map Char.toLower))) :=
      (List.take_sublist 30 _).subset hc
    have h2 : c ∈ replaceNonAlnum (s.data.map Char.toLower) :=
      ((stripEdgeHyphens_sublist _).trans (collapseHyphens_sublist _)).subset
        h1
    exact replaceNonAlnum_chars _ c h2

/-- Unfolding equation for collapseSpec on a cons cell. -/
theorem collapseSpec_cons (a : Char) (l : List Char) :
    collapseSpec (a :: l) =
      if a == '-' && (collapseSpec l).head? == some '-' then collapseSpec l
      else a :: collapseSpec l := rfl

/-- collapseSpec keeps the first character of a nonempty list. -/
theorem collapseSpec_head (b : Char) (t : List Char) :
    (collapseSpec (b :: t)).head? = some b := by
  rw [collapseSpec_cons]
  by_cases hcond : (b == '-' && (collapseSpec t).head? == some '-') = true
  · rw [if_pos hcond]
    rw [Bool.and_eq_true] at hcond
    have hb : b = '-' := by simpa using hcond.1
    have hh : (collapseSpec t).head? = some '-' := by simpa using hcond.2
    rw [hh, hb]
  · rw [if_neg hcond]
    rfl

/-- The source's two-at-a-time collapse agrees with the spec's fold. -/
theorem collapseHyphens_eq_spec (l : List Char) :
    collapseHyphens l = collapseSpec l := by
  induction l with
  | nil => rfl
  | cons a t ih =>
    cases t with
    | nil =>
      rw [collapseSpec_cons]
      simp [collapseHyphens, collapseSpec]
    | cons b t2 =>
      show (if a == '-' && b == '-' then collapseHyphens (b :: t2)
            else a :: collapseHyphens (b :: t2)) = _
      rw [collapseSpec_cons, collapseSpec_head, ih,
        show ((some b : Option Char) == some '-') = (b == '-') from rfl]

/-- collapseHyphens keeps the first character of a nonempty list. -/
theorem collapseHyphens_head (b : Char) (t : List Char) :
    (collapseHyphens (b :: t)).head? = some b := by
  rw [collapseHyphens_eq_spec]
  exact collapseSpec_head b t

/-- The collapsed list contains no two adjacent hyphens. -/
theorem hasDoubleHyphen_collapse (l : List Char) :
    hasDoubleHyphen (collapseHyphens l) = false := by
  induction l with
  | nil => rfl
  | cons a t ih =>
    cases t with
    | nil => rfl
    | cons b t2 =>
      show hasDoubleHyphen
        (if a == '-' && b == '-' then collapseHyphens (b :: t2)
         else a :: collapseHyphens (b :: t2)) = false
      by_cases hab : (a == '-' && b == '-') = true
      · rw [if_pos hab]
        exact ih
      · rw [if_neg hab]
        have hhead := collapseHyphens_head b t2
        cases hcol : collapseHyphens (b :: t2) with
        | nil => rfl
        | cons x r =>
          rw [hcol] at hhead ih
          have hx : x = b := by simpa using hhead
          rw [hx] at ih
          show ((a == '-' && x == '-') || hasDoubleHyphen (x :: r)) = false
          rw [hx, Bool.or_eq_false_iff]
          exact ⟨Bool.eq_false_iff.mpr hab, ih⟩

/-- hasDoubleHyphen as a chain condition on adjacent characters. -/
theorem hasDoubleHyphen_eq_false_iff_chain (l : List Char) :
    hasDoubleHyphen l = false ↔
      l.Chain' (fun x y => ¬(x = '-' ∧ y = '-')) := by
  induction l with
  | nil => simp [hasDoubleHyphen]
  | cons a t ih =>
    cases t with
    | nil => simp [hasDoubleHyphen]
    | cons b t2 =>
      rw [List.chain'_cons, ← ih]
      show ((a == '-' && b == '-') || hasDoubleHyphen (b :: t2)) = false ↔ _
      rw [Bool.or_eq_false_iff]
      constructor
      · rintro ⟨h1, h2⟩
        refine ⟨?_, h2⟩
        rintro ⟨ha, hb⟩
        subst ha
        subst hb
        simp at h1
      · rintro ⟨h1, h2⟩
        refine ⟨?_, h2⟩
        by_cases ha : a = '-'
        · by_cases hb : b = '-'
          · exact absurd ⟨ha, hb⟩ h1
          · simp [hb]
        · simp [ha]

/-- Adjacent-hyphen freedom is preserved by reversal. -/
theorem hasDoubleHyphen_reverse (l : List Char) :
    hasDoubleHyphen l.reverse = false ↔ hasDoubleHyphen l = false := by
  rw [hasDoubleHyphen_eq_false_iff_chain, hasDoubleHyphen_eq_false_iff_chain,
    List.chain'_reverse]
  constructor
  · intro h
    exact h.imp (fun a b hab => by tauto)
  · intro h
    exact h.imp (fun a b hab => by tauto)

/-- Unfolding equation for dropLeadHyphen on a cons cell. -/
theorem dropLeadHyphen_cons (c : Char) (rest : List Char) :
    dropLeadHyphen (c :: rest) = if c == '-' then rest else c :: rest := rfl

/-- Dropping the leading hyphen preserves adjacent-hyphen freedom. -/
theorem hasDoubleHyphen_dropLead (l : List Char)
    (h : hasDoubleHyphen l = false) :
    hasDoubleHyphen (dropLeadHyphen l) = false := by
  cases l with
  | nil => exact h
  | cons c rest =>
    rw [dropLeadHyphen_cons]
    by_cases hc : (c == '-') = true
    · rw [if_pos hc]
      cases rest with
      | nil => rfl
      | cons b t2 =>
        have h2 : ((c == '-' && b == '-') || hasDoubleHyphen (b :: t2))
            = false := h
        rw [Bool.or_eq_false_iff] at h2
        exact h2.2
    · rw [if_neg hc]
      exact h

/-- On a list without adjacent hyphens, removing all leading hyphens is the
same as removing one. -/
theorem dropWhile_hyphen_eq_dropLead (l : List Char)
    (h : hasDoubleHyphen l = false) :
    l.dropWhile (fun c => c == '-') = dropLeadHyphen l := by
  cases l with
  | nil => rfl
  | cons c rest =>
    rw [dropLeadHyphen_cons, List.dropWhile_cons]
    by_cases hc : (c == '-') = true
    · rw [if_pos hc, if_pos hc]
      cases rest with
      | nil => rfl
      | cons b t2 =>
        have h2 : ((c == '-' && b == '-') || hasDoubleHyphen (b :: t2))
            = false := h
        rw [Bool.or_eq_false_iff, hc] at h2
        have hb : (b == '-') = false := by simpa using h2.1
        rw [List.dropWhile_cons, if_neg (by simp [hb])]
    · rw [if_neg hc, if_neg hc]

/-- On a list without adjacent hyphens, the source's strip-one-each-side
equals the spec's strip-all-each-side. -/
theorem stripEdge_eq_stripSpec (l : List Char)
    (h : hasDoubleHyphen l = false) :
    stripEdgeHyphens l = stripSpec l := by
  unfold stripEdgeHyphens stripSpec
  rw [dropWhile_hyphen_eq_dropLead l h]
  have h1 : hasDoubleHyphen (dropLeadHyphen l) = false :=
    hasDoubleHyphen_dropLead l h
  have h2 : hasDoubleHyphen (dropLeadHyphen l).reverse = false :=
    (hasDoubleHyphen_reverse _).mpr h1
  rw [dropWhile_hyphen_eq_dropLead _ h2]

/-- Claim C6: generateSubdomain computes exactly the spec's normalize
pipeline (lowercase, replace outside the class by hyphen, collapse hyphen
runs, strip edge hyphens, truncate to 30), and "Acme Corp!!" normalizes to
"acme-corp". -/
theorem generateSubdomain_eq_normalizeSpec :
    (∀ s : String, generateSubdomain s = normalizeSpec s) ∧
    generateSubdomain "Acme Corp!!" = "acme-corp" := by
  refine ⟨?_, by decide⟩
  intro s
  unfold generateSubdomain normalizeSpec
  rw [← collapseHyphens_eq_spec]
  rw [stripEdge_eq_stripSpec _ (hasDoubleHyphen_collapse _)]
